import Mathlib

/-!
Shallow embedding of the TLS virtual connection engine of
iocore/net/SSLNetVConnection.cc, covering the record layer read path
(ssl_read_from_net and the decrypt loop of net_read_io), the dynamic record
sizing of load_buffer_and_write, the handshake coordinator
(sslStartHandShake and sslServerHandShakeEvent with the pre accept hook
walk), the blind tunnel replay branch of net_read_io, reenable, callHooks,
free and make_ssl_connection.  Logging and statistics counters of the
source are elided except where a claim mentions them; the TLS library and
socket are modeled as explicit response oracles.
-/

set_option linter.unusedVariables false

/-- Transport attribute of the virtual connection: normal TLS processing or
blind tunnel (HttpProxyPort TRANSPORT_BLIND_TUNNEL). -/
inductive Attr
| tls
| blindTunnel
deriving DecidableEq, Repr

/-- Plugin verdict requested by a hook (TS_SSL_HOOK_OP_DEFAULT, OP_TUNNEL,
OP_TERMINATE). -/
inductive HookOp
| dflt
| tunnel
| terminate
deriving DecidableEq, Repr

/-- Pre accept hook walk state (SSL_HOOKS_INIT, INVOKE, ACTIVE, DONE). -/
inductive PreAcceptState
| init
| invoke
| active
| done
deriving DecidableEq, Repr

/-- SNI hook state (SNI_HOOKS_INIT, CONTINUE, DONE). -/
inductive SniState
| init
| cont
| done
deriving DecidableEq, Repr

/-- Events signalled upstream (the VC_EVENT codes emitted by the modeled
paths). -/
inductive VcEvent
| readComplete
| readReady
| eos
| error
deriving DecidableEq, Repr

/-- Result of make_ssl_connection as far as the I/O binding of the new TLS
session is concerned: boundToFd models SSL_set_fd, handshakeBuffers models
initialize_handshake_buffers, memReadBio models the BIO_s_mem read BIO
installed with the BIO_new_fd write BIO. -/
structure SslConnSetup where
  boundToFd : Bool
  handshakeBuffers : Bool
  memReadBio : Bool
deriving DecidableEq, Repr

/-- Embedding of make_ssl_connection: SSL_new may fail (sslNewOk false gives
none).  On success a client connection is bound directly to the socket with
SSL_set_fd, while a server connection gets the handshake replay buffers and
a memory read BIO plus an fd write BIO. -/
def make_ssl_connection (sslNewOk : Bool) (isClientConnection : Bool) : Option SslConnSetup :=
  if sslNewOk then
    if isClientConnection then some { boundToFd := true, handshakeBuffers := false, memReadBio := false }
    else some { boundToFd := false, handshakeBuffers := true, memReadBio := true }
  else none

/-- Observable outcome of SSLNetVConnection free on the fields the claims
mention. -/
structure FreeOutcome where
  errorLogged : Bool
  freed : Bool
  finalPreAcceptState : PreAcceptState
  finalHookOp : HookOp
  finalHandShakeComplete : Bool
deriving DecidableEq, Repr

/-- Embedding of SSLNetVConnection free: it logs an error exactly when the
pre accept hook state is still active, then unconditionally resets the hook
machinery and returns the object to an allocator (per thread free list or
the shared allocator). -/
def SSLNetVConnection_free (preAcceptState : PreAcceptState) : FreeOutcome :=
  { errorLogged := decide (preAcceptState = PreAcceptState.active)
    freed := true
    finalPreAcceptState := PreAcceptState.init
    finalHookOp := HookOp.dflt
    finalHandShakeComplete := false }

/-- Reset step of dynamic TLS record sizing in load_buffer_and_write: when
the milliseconds since the last write exceed the idle threshold, the
cumulative counter sslTotalBytesSent is reset to zero.  The threshold
SSL_DEF_TLS_RECORD_MSEC_THRESHOLD is a constant defined outside the provided
sources, so it is a parameter here. -/
def resetTotalBytesIfIdle (msecThreshold msecSinceLastWrite total : Int) : Int :=
  if msecSinceLastWrite > msecThreshold then 0 else total

/-- Per operation record cap of load_buffer_and_write: with a fixed cap
(maxrecord positive) the length is clamped to maxrecord; in dynamic mode
(maxrecord = -1) it is clamped to the small default record size while the
cumulative counter is below the byte threshold and to the TLS maximum record
size otherwise; with maxrecord = 0 the length is unchanged.  The record size
constants (SSL_DEF_TLS_RECORD_SIZE, SSL_MAX_TLS_RECORD_SIZE and
SSL_DEF_TLS_RECORD_BYTE_THRESHOLD) are defined outside the provided sources,
so they are parameters here. -/
def sslWriteRecordCap (defSize maxSize byteThreshold : Int) (maxrecord total l : Int) : Int :=
  if maxrecord > 0 ∧ l > maxrecord then maxrecord
  else if maxrecord = -1 then
    let dyn := if total < byteThreshold then defSize else maxSize
    if l > dyn then dyn else l
  else l

/-- Behavior of one SNI hook invocation, described by the value it leaves in
sslSNIHookState.  The callHooks loop resets the state to done before each
invocation, so the state a hook leaves fully describes it: done means the
hook did not reenable, cont means it called reenable from the SNI
suspension. -/
abbrev SniHook := SniState

/-- Loop of callHooks over the SNI hook chain: reset the state to done,
invoke the hook, and stop when the hook left the state at done.  Returns the
final SNI state, whether the walk completed with every hook reenabling, and
the list of hooks invoked in order. -/
def callHooksLoop (hooks : List SniHook) (s : SniState) : SniState × Bool × List SniHook :=
  match hooks with
  | [] => (s, true, [])
  | h :: rest =>
    if h = SniState.done then (h, false, [h])
    else
      let r := callHooksLoop rest h
      (r.1, r.2.1, h :: r.2.2)

/-- Embedding of SSLNetVConnection callHooks: it asserts that the event id is
the SNI hook id (none models the assertion firing for any other id) and then
walks the SNI chain synchronously. -/
def callHooks (sniHookId eventId : Nat) (hooks : List SniHook) (s : SniState) :
    Option (SniState × Bool × List SniHook) :=
  if eventId = sniHookId then some (callHooksLoop hooks s) else none

/-- Predicate on a hook behavior: the hook reenabled, that is it left the SNI
state at something other than done. -/
def hookReenabled (h : SniHook) : Bool := decide (h ≠ SniState.done)

/-- State touched by the handshake branch of net_read_io: the handshake
holder and reader views of the replay buffer (the holder keeps every byte
read since the start of the handshake, the reader is its unconsumed
suffix), the read VIO fields and the log of events signalled upstream. -/
structure TunnelReadState where
  attributes : Attr
  sslHandShakeComplete : Bool
  handShakeHolder : Option (List Nat)
  handShakeReader : Option (List Nat)
  readBuf : List Nat
  nbytes : Int
  ndone : Int
  signals : List VcEvent
deriving DecidableEq, Repr

/-- Embedding of the handShakeReader branch of net_read_io that runs right
after sslStartHandShake returned: when not in blind tunnel mode the bytes
the engine consumed are dropped from the reader (dataStillToRead models
BIO_get_mem_data on the read BIO); when in blind tunnel mode a read complete
is signalled, and if the handshake flag is not yet set (the tunnel decision
was made in the SNI callback) the flag is set, the whole holder content is
appended to the read VIO buffer, nbytes and ndone are advanced by its
length, the replay buffers are freed and read complete is signalled a second
time. -/
def netReadIOHandshakeBranch (s : TunnelReadState) (dataStillToRead : Nat) : TunnelReadState :=
  match s.handShakeReader with
  | none => s
  | some reader =>
    if s.attributes ≠ Attr.blindTunnel then
      { s with handShakeReader := some (reader.drop (reader.length - dataStillToRead)) }
    else
      let s1 := { s with signals := s.signals ++ [VcEvent.readComplete] }
      if s1.sslHandShakeComplete then s1
      else
        let data := s1.handShakeHolder.getD []
        { s1 with
          sslHandShakeComplete := true
          readBuf := s1.readBuf ++ data
          nbytes := s1.nbytes + data.length
          ndone := s1.ndone + data.length
          handShakeHolder := none
          handShakeReader := none
          signals := s1.signals ++ [VcEvent.readComplete] }

/-- Engine status of one SSLReadBuffer call (the SSL_ERROR codes the read
path distinguishes; sslOther stands for SSL_ERROR_SSL and anything else). -/
inductive SslReadErr
| noErr
| wantRead
| wantWrite
| wantX509
| syscall
| zeroReturn
| sslOther
deriving DecidableEq, Repr

/-- Event codes of the record layer read path (the SSL_READ defines plus
SSL_WRITE_WOULD_BLOCK). -/
inductive ReadEvent
| errorNone
| readError
| readReady
| readComplete
| readWouldBlock
| readEOS
| writeWouldBlock
deriving DecidableEq, Repr

/-- One response of the TLS engine to an SSLReadBuffer call: the status and
the nread out parameter. -/
structure ReadCall where
  err : SslReadErr
  nread : Int
deriving DecidableEq, Repr

/-- Event assignment of the switch in ssl_read_from_net for each engine
status: want write maps to write would block; want read and want x509 lookup
map to read would block; syscall maps to read error when nread is nonzero
and to eos when nread is zero; zero return maps to eos; any other ssl error
maps to read error. -/
def sslErrorReadEvent (e : SslReadErr) (nread : Int) : ReadEvent :=
  match e with
  | SslReadErr.noErr => ReadEvent.errorNone
  | SslReadErr.wantWrite => ReadEvent.writeWouldBlock
  | SslReadErr.wantRead => ReadEvent.readWouldBlock
  | SslReadErr.wantX509 => ReadEvent.readWouldBlock
  | SslReadErr.syscall => if nread ≠ 0 then ReadEvent.readError else ReadEvent.readEOS
  | SslReadErr.zeroReturn => ReadEvent.readEOS
  | SslReadErr.sslOther => ReadEvent.readError

/-- Inner while loop of ssl_read_from_net over one block: keep calling the
engine while write space remains in the block; a success response consumes
its bytes from the remaining space and accumulates them, any other response
sets the event (with errno recorded when the event is read error) and leaves
the loop.  Returns the event, the recorded errno if any, the bytes read in
this block and the remaining engine trace. -/
def sslReadBlock (errnoV avail : Int) (calls : List ReadCall) :
    ReadEvent × Option Int × Int × List ReadCall :=
  match calls with
  | [] => (ReadEvent.errorNone, none, 0, [])
  | c :: rest =>
    if avail ≤ 0 then (ReadEvent.errorNone, none, 0, c :: rest)
    else
      match c.err with
      | SslReadErr.noErr =>
        let r := sslReadBlock errnoV (avail - c.nread) rest
        (r.1, r.2.1, c.nread + r.2.2.1, r.2.2.2)
      | _ =>
        let ev := sslErrorReadEvent c.err c.nread
        (ev, if ev = ReadEvent.readError then some errnoV else none, 0, rest)

/-- Outer for loop of ssl_read_from_net over the write blocks of the read
VIO buffer: process blocks in order while the engine status stays success,
accumulating the bytes read. -/
def sslReadBlocks (errnoV : Int) (blocks : List Int) (calls : List ReadCall) :
    ReadEvent × Option Int × Int × List ReadCall :=
  match blocks with
  | [] => (ReadEvent.errorNone, none, 0, calls)
  | b :: bs =>
    let r := sslReadBlock errnoV b calls
    if r.1 = ReadEvent.errorNone then
      let r2 := sslReadBlocks errnoV bs r.2.2.2
      (r2.1, r2.2.1, r.2.2.1 + r2.2.2.1, r2.2.2.2)
    else r

/-- Result of one ssl_read_from_net call: the event returned, the value left
in the by reference ret argument, the bytes decrypted, the updated ndone of
the read VIO and the unconsumed engine trace. -/
structure SslReadResult where
  event : ReadEvent
  ret : Int
  bytesRead : Int
  ndone : Int
  callsLeft : List ReadCall
deriving DecidableEq, Repr

/-- Embedding of ssl_read_from_net: walk the write blocks feeding the
engine; if any bytes were read, fill the writer, advance ndone, set ret to
the byte count and classify as read complete when the VIO demand is met and
read ready otherwise; with no bytes read, the event computed by the switch
stands and ret carries errno exactly when a read error was recorded. -/
def ssl_read_from_net (errnoV : Int) (blocks : List Int) (calls : List ReadCall)
    (nbytes ndone retIn : Int) : SslReadResult :=
  let r := sslReadBlocks errnoV blocks calls
  let bytesRead := r.2.2.1
  if bytesRead > 0 then
    let ndone2 := ndone + bytesRead
    { event := if nbytes - ndone2 ≤ 0 then ReadEvent.readComplete else ReadEvent.readReady
      ret := bytesRead
      bytesRead := bytesRead
      ndone := ndone2
      callsLeft := r.2.2.2 }
  else
    { event := r.1
      ret := (r.2.1).getD retIn
      bytesRead := bytesRead
      ndone := ndone
      callsLeft := r.2.2.2 }

/-- Effect of filling the chain writer by n bytes on the per block write
available space: the leading blocks are consumed front first. -/
def fillBlocks : List Int → Int → List Int
  | [], _ => []
  | b :: bs, n =>
    if n ≤ 0 then b :: bs
    else if n ≤ b then (b - n) :: bs
    else 0 :: fillBlocks bs (n - b)

/-- One execution of the body of the decrypt loop of net_read_io: call
ssl_read_from_net and accumulate the returned count into the running total
when the result is read ready or the neutral status. -/
def netReadOnce (errnoV nbytes : Int) (blocks : List Int) (calls : List ReadCall)
    (ndone r0 bytes : Int) : ReadEvent × Int :=
  let res := ssl_read_from_net errnoV blocks calls nbytes ndone r0
  (res.event,
    if res.event = ReadEvent.readReady ∨ res.event = ReadEvent.errorNone then bytes + res.ret
    else bytes)

/-- The do while decrypt loop of net_read_io, with fuel to express
termination: each iteration runs the body above and repeats while the result
is read ready with a zero running total or the neutral status.  Returns the
final event, the accumulated byte total and the number of body executions,
or none when the fuel runs out. -/
def netReadLoop (errnoV nbytes : Int) : Nat → List Int → List ReadCall → Int → Int → Int →
    Option (ReadEvent × Int × Nat)
  | 0, _, _, _, _, _ => none
  | fuel + 1, blocks, calls, ndone, r0, bytes =>
    let res := ssl_read_from_net errnoV blocks calls nbytes ndone r0
    let bytes2 :=
      if res.event = ReadEvent.readReady ∨ res.event = ReadEvent.errorNone then bytes + res.ret
      else bytes
    if (res.event = ReadEvent.readReady ∧ bytes2 = 0) ∨ res.event = ReadEvent.errorNone then
      match netReadLoop errnoV nbytes fuel (fillBlocks blocks res.bytesRead) res.callsLeft
          res.ndone res.ret bytes2 with
      | none => none
      | some (ev, b, iters) => some (ev, b, iters + 1)
    else some (res.event, bytes2, 1)

/-- Engine status of an SSLAccept call (the SSL_ERROR codes the server
handshake driver distinguishes, including the patched want SNI resolve). -/
inductive SslHsErr
| noErr
| wantConnect
| wantWrite
| wantRead
| wantSniResolve
| wantAccept
| wantX509
| sslErr
| zeroReturn
| syscall
deriving DecidableEq, Repr

/-- Handshake driver results: EVENT_DONE, EVENT_ERROR, EVENT_CONT, the
SSL_HANDSHAKE_WANT codes and SSL_WAIT_FOR_HOOK. -/
inductive HsResult
| done
| error
| cont
| wantRead
| wantWrite
| wantAccept
| wantConnect
| waitForHook
deriving DecidableEq, Repr

/-- State of the handshake coordinator fields the claims mention.  curHook
is represented by the suffix of the pre accept hook chain it points into
(its head is the hook curHook designates); hooks are identified by numbers,
as are sessions and registry endpoints. -/
structure HsState where
  ssl : Option Nat
  attributes : Attr
  sslHandShakeComplete : Bool
  preAcceptState : PreAcceptState
  curHook : List Nat
  hookOp : HookOp
  sniState : SniState
  npnSet : Option Nat
  npnEndpoint : Option Nat
deriving DecidableEq, Repr

/-- External responses consumed by one server handshake step: the SSLAccept
status, the hook verdict as it stands when SSLAccept returns (the SNI
callback may have updated it during the call), the ALPN and NPN selections
(an empty list models a zero length, that is no selection) and the endpoint
lookup of the protocol registry. -/
structure SrvOracle where
  acceptResult : SslHsErr
  opAfterAccept : HookOp
  alpnProto : List Nat
  npnProto : List Nat
  findEndpoint : List Nat → Option Nat

/-- Protocol selection on handshake success: the ALPN selection when it is
nonempty, otherwise the NPN selection (mirrors the len equal zero fallback
from SSL_get0_alpn_selected to SSL_get0_next_proto_negotiated). -/
def selectedProto (o : SrvOracle) : List Nat :=
  if o.alpnProto ≠ [] then o.alpnProto else o.npnProto

/-- Portion of sslServerHandShakeEvent after the pre accept walk completed:
inspect the tunnel or terminate verdict, otherwise drive SSLAccept and map
its status; on success set the handshake flag and resolve the selected
protocol through the registry, failing when it is not registered.  The
socket read feeding the memory BIO before SSLAccept only changes the engine
input and is elided. -/
def afterPreAccept (o : SrvOracle) (s : HsState) : HsState × Option Nat × HsResult :=
  if s.hookOp = HookOp.tunnel then
    ({ s with attributes := Attr.blindTunnel, ssl := none, sslHandShakeComplete := true },
      none, HsResult.done)
  else if s.hookOp = HookOp.terminate then
    ({ s with sslHandShakeComplete := true }, none, HsResult.done)
  else
    let sA := { s with hookOp := o.opAfterAccept }
    match o.acceptResult with
    | SslHsErr.noErr =>
      let s1 := { sA with sslHandShakeComplete := true }
      if selectedProto o ≠ [] then
        let ep := o.findEndpoint (selectedProto o)
        let s2 := { s1 with npnEndpoint := ep, npnSet := none }
        if ep = none then (s2, none, HsResult.error) else (s2, none, HsResult.done)
      else (s1, none, HsResult.done)
    | SslHsErr.wantConnect => (sA, none, HsResult.wantConnect)
    | SslHsErr.wantWrite => (sA, none, HsResult.wantWrite)
    | SslHsErr.wantRead => (sA, none, HsResult.wantRead)
    | SslHsErr.wantSniResolve =>
      if sA.attributes = Attr.blindTunnel ∨ sA.hookOp = HookOp.tunnel then
        ({ sA with attributes := Attr.blindTunnel, sslHandShakeComplete := false },
          none, HsResult.cont)
      else (sA, none, HsResult.cont)
    | SslHsErr.wantAccept => (sA, none, HsResult.cont)
    | SslHsErr.wantX509 => (sA, none, HsResult.cont)
    | SslHsErr.sslErr => (sA, none, HsResult.error)
    | SslHsErr.zeroReturn => (sA, none, HsResult.error)
    | SslHsErr.syscall => (sA, none, HsResult.error)

/-- Embedding of sslServerHandShakeEvent: run the pre accept hook walk one
step at a time, dispatching at most one hook per entry and returning wait
for hook while one is outstanding; once the walk is done fall through to the
verdict and SSLAccept handling.  The middle component of the result is the
hook dispatched by this step, if any. -/
def sslServerHandShakeEvent (chain : List Nat) (o : SrvOracle) (s : HsState) :
    HsState × Option Nat × HsResult :=
  if s.preAcceptState ≠ PreAcceptState.done then
    let s1 :=
      if s.preAcceptState = PreAcceptState.init then
        { s with curHook := chain, preAcceptState := PreAcceptState.invoke }
      else if s.preAcceptState = PreAcceptState.invoke then
        { s with curHook := s.curHook.drop 1 }
      else s
    if s1.preAcceptState = PreAcceptState.invoke then
      match s1.curHook with
      | [] => afterPreAccept o { s1 with preAcceptState := PreAcceptState.done }
      | h :: _ =>
        ({ s1 with preAcceptState := PreAcceptState.active }, some h, HsResult.waitForHook)
    else (s1, none, HsResult.waitForHook)
  else afterPreAccept o s

/-- Certificate context entry found in the certificate store by local
address; only the tunnel option matters to the modeled paths. -/
structure CertCtx where
  optTunnel : Bool
deriving DecidableEq, Repr

/-- Embedding of the server case of sslStartHandShake: with no session yet,
look up the certificate context by local address; a tunnel flagged context
on a transparent vc converts to blind tunnel immediately without a session;
otherwise create the session against the default context (newSession none
models SSL_new failing, which yields error) and fall into
sslServerHandShakeEvent. -/
def sslStartHandShakeServer (chain : List Nat) (o : SrvOracle)
    (certLookup : Option CertCtx) (isTransparent : Bool) (newSession : Option Nat)
    (s : HsState) : HsState × Option Nat × HsResult :=
  if s.ssl = none then
    if (certLookup.map CertCtx.optTunnel).getD false ∧ isTransparent then
      ({ s with attributes := Attr.blindTunnel, sslHandShakeComplete := true, ssl := none },
        none, HsResult.done)
    else
      match newSession with
      | none => (s, none, HsResult.error)
      | some sess => sslServerHandShakeEvent chain o { s with ssl := some sess }
  else sslServerHandShakeEvent chain o s

/-- Embedding of SSLNetVConnection reenable: while the pre accept walk is
not done, set its state back to invoke and reschedule a read; otherwise the
call comes from an SNI suspension and sets the SNI state to continue.  The
Bool records whether a read was rescheduled. -/
def sslReenable (s : HsState) : HsState × Bool :=
  if s.preAcceptState ≠ PreAcceptState.done then
    ({ s with preAcceptState := PreAcceptState.invoke }, true)
  else ({ s with sniState := SniState.cont }, false)

/-- Dispatch sequence of the pre accept walk: run handshake steps and, after
each dispatched hook, let the plugin call reenable; collect the dispatched
hooks in order, stopping when a step dispatches none. -/
def paDispatches (chain : List Nat) (o : SrvOracle) : Nat → HsState → List Nat
  | 0, _ => []
  | n + 1, s =>
    let r := sslServerHandShakeEvent chain o s
    match r.2.1 with
    | some h => h :: paDispatches chain o n (sslReenable r.1).1
    | none => []

/-- A fixed oracle used to instantiate concrete handshake runs. -/
def oDefault : SrvOracle :=
  { acceptResult := SslHsErr.noErr
    opAfterAccept := HookOp.dflt
    alpnProto := []
    npnProto := []
    findEndpoint := fun _ => none }

/-- Initial handshake state of a fresh server connection. -/
def hsInit : HsState :=
  { ssl := none
    attributes := Attr.tls
    sslHandShakeComplete := false
    preAcceptState := PreAcceptState.init
    curHook := []
    hookOp := HookOp.dflt
    sniState := SniState.init
    npnSet := none
    npnEndpoint := none }

/-- Handshake state with the pre accept walk done. -/
def hsDone : HsState :=
  { hsInit with preAcceptState := PreAcceptState.done }

/-- Handshake state with the walk done, a session present and the tunnel
verdict requested. -/
def hsDoneTunnel : HsState :=
  { hsInit with preAcceptState := PreAcceptState.done, ssl := some 1, hookOp := HookOp.tunnel }

/-- Handshake state with the walk done, a session present and the terminate
verdict requested. -/
def hsDoneTerm : HsState :=
  { hsInit with preAcceptState := PreAcceptState.done, ssl := some 1, hookOp := HookOp.terminate }

/-- Oracle whose ALPN selection resolves in the registry. -/
def oAlpnGood : SrvOracle :=
  { acceptResult := SslHsErr.noErr
    opAfterAccept := HookOp.dflt
    alpnProto := [2]
    npnProto := [3]
    findEndpoint := fun p => if p = [2] then some 9 else none }

/-- Oracle whose ALPN selection is not registered. -/
def oAlpnBad : SrvOracle :=
  { acceptResult := SslHsErr.noErr
    opAfterAccept := HookOp.dflt
    alpnProto := [2]
    npnProto := [3]
    findEndpoint := fun p => none }

/-- Claim C10: handshake replay buffers and the memory read BIO are created
only for server role connections; a client role connection is bound directly
to the socket fd and never allocates the handshake buffers. -/
theorem make_ssl_connection_roles :
    make_ssl_connection true true =
      some { boundToFd := true, handshakeBuffers := false, memReadBio := false }
  ∧ make_ssl_connection true false =
      some { boundToFd := false, handshakeBuffers := true, memReadBio := true }
  ∧ make_ssl_connection false true = none
  ∧ make_ssl_connection false false = none := by
  decide

/-- Claim C3 counterexample: freeing while the pre accept hook state is
active does not refuse the free; the object is torn down and returned to the
allocator anyway, so the claim that the vc refuses to free is false. -/
theorem free_with_active_hook_still_frees :
    (SSLNetVConnection_free PreAcceptState.active).freed = true := by
  decide

/-- Claim C3 amended: for every call to free while the pre accept hook state
is active, an observable error is logged, but the vc does not refuse the
free: the hook state is reset and the object is freed anyway. -/
theorem free_with_active_hook_logs (p : PreAcceptState) (h : p = PreAcceptState.active) :
    (SSLNetVConnection_free p).errorLogged = true
  ∧ (SSLNetVConnection_free p).freed = true
  ∧ (SSLNetVConnection_free p).finalPreAcceptState = PreAcceptState.init := by
  subst h
  decide

/-- Witness for the amended claim C3 at a concrete input. -/
theorem free_with_active_hook_logs_inst :
    (SSLNetVConnection_free PreAcceptState.active).errorLogged = true
  ∧ (SSLNetVConnection_free PreAcceptState.active).freed = true
  ∧ (SSLNetVConnection_free PreAcceptState.active).finalPreAcceptState = PreAcceptState.init :=
  free_with_active_hook_logs PreAcceptState.active rfl

/-- Claim C5: in dynamic record sizing mode, idle time above the threshold
resets the cumulative counter to zero; each write operation is then capped
at the small default record size while the counter is below the byte
threshold and at the TLS maximum record size otherwise; with a fixed cap
each operation is capped at maxrecord. -/
theorem dynamic_record_sizing
    (defSize maxSize byteThreshold msecThreshold msec total l maxrec : Int) :
    (msec > msecThreshold → resetTotalBytesIfIdle msecThreshold msec total = 0)
  ∧ (maxrec = -1 → total < byteThreshold →
      sslWriteRecordCap defSize maxSize byteThreshold maxrec total l = min l defSize)
  ∧ (maxrec = -1 → ¬ total < byteThreshold →
      sslWriteRecordCap defSize maxSize byteThreshold maxrec total l = min l maxSize)
  ∧ (maxrec > 0 →
      sslWriteRecordCap defSize maxSize byteThreshold maxrec total l = min l maxrec) := by
  refine ⟨fun h => ?_, fun hm ht => ?_, fun hm ht => ?_, fun hm => ?_⟩
  · simp [resetTotalBytesIfIdle, h]
  · simp only [sslWriteRecordCap, hm, ht]
    norm_num
    omega
  · simp only [sslWriteRecordCap, hm, ht]
    norm_num
    omega
  · simp only [sslWriteRecordCap]
    split
    · omega
    · split
      · omega
      · omega

/-- Witness for claim C5 at concrete inputs. -/
theorem dynamic_record_sizing_inst :
    (2000 > (1000 : Int) → resetTotalBytesIfIdle 1000 2000 500 = 0)
  ∧ ((-1 : Int) = -1 → (500 : Int) < 1000000 →
      sslWriteRecordCap 1300 16384 1000000 (-1) 500 5000 = min 5000 1300)
  ∧ ((-1 : Int) = -1 → ¬ (500 : Int) < 1000000 →
      sslWriteRecordCap 1300 16384 1000000 (-1) 500 5000 = min 5000 16384)
  ∧ ((-1 : Int) > 0 →
      sslWriteRecordCap 1300 16384 1000000 (-1) 500 5000 = min 5000 (-1)) :=
  dynamic_record_sizing 1300 16384 1000000 1000 2000 500 5000 (-1)

/-- Claim C1: when the connection was promoted to blind tunnel with
handshake bytes buffered and the handshake flag still clear (the SNI driven
tunnel verdict), the branch sets the handshake flag, copies the buffered
bytes verbatim and in order into the read VIO buffer, advances nbytes and
ndone by exactly their count, releases the replay buffers and signals read
complete exactly twice. -/
theorem netReadIO_tunnel_promotion_replay
    (s : TunnelReadState) (reader data : List Nat) (d : Nat)
    (hr : s.handShakeReader = some reader)
    (hh : s.handShakeHolder = some data)
    (ha : s.attributes = Attr.blindTunnel)
    (hc : s.sslHandShakeComplete = false) :
    netReadIOHandshakeBranch s d =
      { s with
        sslHandShakeComplete := true
        readBuf := s.readBuf ++ data
        nbytes := s.nbytes + data.length
        ndone := s.ndone + data.length
        handShakeHolder := none
        handShakeReader := none
        signals := s.signals ++ [VcEvent.readComplete, VcEvent.readComplete] } := by
  cases s
  simp_all [netReadIOHandshakeBranch]

/-- Witness for claim C1 at a concrete state. -/
theorem netReadIO_tunnel_promotion_replay_inst :
    netReadIOHandshakeBranch
      { attributes := Attr.blindTunnel
        sslHandShakeComplete := false
        handShakeHolder := some [1, 2, 3]
        handShakeReader := some [3]
        readBuf := [9]
        nbytes := 4
        ndone := 1
        signals := [] } 0 =
      { attributes := Attr.blindTunnel
        sslHandShakeComplete := true
        handShakeHolder := none
        handShakeReader := none
        readBuf := [9, 1, 2, 3]
        nbytes := 7
        ndone := 4
        signals := [VcEvent.readComplete, VcEvent.readComplete] } := by
  have h := netReadIO_tunnel_promotion_replay
    { attributes := Attr.blindTunnel
      sslHandShakeComplete := false
      handShakeHolder := some [1, 2, 3]
      handShakeReader := some [3]
      readBuf := [9]
      nbytes := 4
      ndone := 1
      signals := [] } [3] [1, 2, 3] 0 rfl rfl rfl rfl
  exact h.trans (by decide)

/-- The walk of callHooksLoop reenables exactly when every hook of the chain
reenables. -/
theorem callHooksLoop_all (hooks : List SniHook) (s : SniState) :
    (callHooksLoop hooks s).2.1 = hooks.all hookReenabled := by
  induction hooks generalizing s with
  | nil => rfl
  | cons h rest ih =>
    by_cases hd : h = SniState.done
    · simp [callHooksLoop, hd, hookReenabled]
    · simp [callHooksLoop, hd, hookReenabled, ih]

/-- The hooks invoked by callHooksLoop are the chain prefix through the
first hook that does not reenable. -/
theorem callHooksLoop_invoked (hooks : List SniHook) (s : SniState) :
    (callHooksLoop hooks s).2.2 =
      hooks.take ((hooks.takeWhile hookReenabled).length + 1) := by
  induction hooks generalizing s with
  | nil => rfl
  | cons h rest ih =>
    by_cases hd : h = SniState.done
    · simp [callHooksLoop, hd, List.takeWhile, hookReenabled]
    · simp [callHooksLoop, hd, List.takeWhile, hookReenabled, ih]

/-- The reenabled result of callHooksLoop says that every invoked hook
reenabled. -/
theorem callHooksLoop_all_invoked (hooks : List SniHook) (s : SniState) :
    (callHooksLoop hooks s).2.1 = ((callHooksLoop hooks s).2.2).all hookReenabled := by
  induction hooks generalizing s with
  | nil => rfl
  | cons h rest ih =>
    by_cases hd : h = SniState.done
    · simp [callHooksLoop, hd, hookReenabled]
    · simp [callHooksLoop, hd, hookReenabled, ih]

/-- Claim C8: callHooks accepts only the SNI event id, walks the SNI chain
synchronously invoking hooks in registration order, stops at the first hook
that does not reenable, and returns true exactly when every invoked hook
reenabled (equivalently, when the whole chain reenabled). -/
theorem callHooks_sni_walk :
    (∀ (sniId e : Nat) (hooks : List SniHook) (s : SniState),
      e ≠ sniId → callHooks sniId e hooks s = none)
  ∧ (∀ (sniId : Nat) (hooks : List SniHook) (s : SniState),
      callHooks sniId sniId hooks s = some (callHooksLoop hooks s))
  ∧ (∀ (hooks : List SniHook) (s : SniState),
      (callHooksLoop hooks s).2.2 =
        hooks.take ((hooks.takeWhile hookReenabled).length + 1))
  ∧ (∀ (hooks : List SniHook) (s : SniState),
      (callHooksLoop hooks s).2.1 = ((callHooksLoop hooks s).2.2).all hookReenabled)
  ∧ (∀ (hooks : List SniHook) (s : SniState),
      (callHooksLoop hooks s).2.1 = hooks.all hookReenabled) := by
  refine ⟨fun sniId e hooks s he => ?_, fun sniId hooks s => ?_, callHooksLoop_invoked,
    callHooksLoop_all_invoked, callHooksLoop_all⟩
  · simp [callHooks, he]
  · simp [callHooks]

/-- Witness for claim C8 at concrete inputs. -/
theorem callHooks_sni_walk_inst :
    callHooks 1 0 [SniState.cont] SniState.init = none
  ∧ callHooks 1 1 [SniState.cont] SniState.init =
      some (callHooksLoop [SniState.cont] SniState.init)
  ∧ (callHooksLoop [SniState.cont, SniState.done, SniState.cont] SniState.init).2.2 =
      [SniState.cont, SniState.done, SniState.cont].take
        (([SniState.cont, SniState.done, SniState.cont].takeWhile hookReenabled).length + 1) :=
  ⟨callHooks_sni_walk.1 1 0 [SniState.cont] SniState.init (by decide),
   callHooks_sni_walk.2.1 1 [SniState.cont] SniState.init,
   callHooks_sni_walk.2.2.1 [SniState.cont, SniState.done, SniState.cont] SniState.init⟩

/-- Claim C2 counterexample: a decrypt call reporting want x509 lookup is
mapped to read would block by the read path, not to write would block as
the claim states. -/
theorem ssl_read_x509_cross_signal_refuted :
    (ssl_read_from_net 5 [4] [{ err := SslReadErr.wantX509, nread := 0 }] 10 0 0).event =
      ReadEvent.readWouldBlock
  ∧ (ssl_read_from_net 5 [4] [{ err := SslReadErr.wantX509, nread := 0 }] 10 0 0).event ≠
      ReadEvent.writeWouldBlock := by
  decide

/-- Claim C2 amended: the per decrypt call status mapping of the read path
sends want read and want x509 lookup to read would block, want write to
write would block, syscall with zero nread and zero return to eos, syscall
with nonzero nread and any other ssl error to read error; on a read error
with no bytes accumulated the returned value carries errno. -/
theorem ssl_read_from_net_status_map (n errnoV a nb nd r0 : Int) (rest : List ReadCall)
    (hn : n ≠ 0) (ha : 0 < a) :
    sslErrorReadEvent SslReadErr.wantRead n = ReadEvent.readWouldBlock
  ∧ sslErrorReadEvent SslReadErr.wantWrite n = ReadEvent.writeWouldBlock
  ∧ sslErrorReadEvent SslReadErr.wantX509 n = ReadEvent.readWouldBlock
  ∧ sslErrorReadEvent SslReadErr.syscall 0 = ReadEvent.readEOS
  ∧ sslErrorReadEvent SslReadErr.syscall n = ReadEvent.readError
  ∧ sslErrorReadEvent SslReadErr.zeroReturn n = ReadEvent.readEOS
  ∧ sslErrorReadEvent SslReadErr.sslOther n = ReadEvent.readError
  ∧ (ssl_read_from_net errnoV [a] ({ err := SslReadErr.syscall, nread := n } :: rest)
      nb nd r0).event = ReadEvent.readError
  ∧ (ssl_read_from_net errnoV [a] ({ err := SslReadErr.syscall, nread := n } :: rest)
      nb nd r0).ret = errnoV := by
  have ha2 : ¬ a ≤ 0 := not_le.mpr ha
  refine ⟨rfl, rfl, rfl, by simp [sslErrorReadEvent], by simp [sslErrorReadEvent, hn],
    rfl, rfl, ?_, ?_⟩
  all_goals
    simp [ssl_read_from_net, sslReadBlocks, sslReadBlock, sslErrorReadEvent, ha2, hn]

/-- Witness for the amended claim C2 at concrete inputs. -/
theorem ssl_read_from_net_status_map_inst :
    sslErrorReadEvent SslReadErr.wantRead 1 = ReadEvent.readWouldBlock
  ∧ sslErrorReadEvent SslReadErr.wantWrite 1 = ReadEvent.writeWouldBlock
  ∧ sslErrorReadEvent SslReadErr.wantX509 1 = ReadEvent.readWouldBlock
  ∧ sslErrorReadEvent SslReadErr.syscall 0 = ReadEvent.readEOS
  ∧ sslErrorReadEvent SslReadErr.syscall 1 = ReadEvent.readError
  ∧ sslErrorReadEvent SslReadErr.zeroReturn 1 = ReadEvent.readEOS
  ∧ sslErrorReadEvent SslReadErr.sslOther 1 = ReadEvent.readError
  ∧ (ssl_read_from_net 5 [4] ({ err := SslReadErr.syscall, nread := 1 } :: [])
      10 0 0).event = ReadEvent.readError
  ∧ (ssl_read_from_net 5 [4] ({ err := SslReadErr.syscall, nread := 1 } :: [])
      10 0 0).ret = 5 :=
  ssl_read_from_net_status_map 1 5 4 10 0 0 [] (by decide) (by decide)

/-- The status switch never yields the neutral status for a failing engine
status. -/
theorem sslErrorReadEvent_ne_none (e : SslReadErr) (n : Int) (he : e ≠ SslReadErr.noErr) :
    sslErrorReadEvent e n ≠ ReadEvent.errorNone := by
  cases e with
  | noErr => exact absurd rfl he
  | wantRead => simp [sslErrorReadEvent]
  | wantWrite => simp [sslErrorReadEvent]
  | wantX509 => simp [sslErrorReadEvent]
  | syscall => by_cases h0 : n = 0 <;> simp [sslErrorReadEvent, h0]
  | zeroReturn => simp [sslErrorReadEvent]
  | sslOther => simp [sslErrorReadEvent]

/-- The status switch never yields read ready; that classification only
arises from a positive byte count after the loop. -/
theorem sslErrorReadEvent_ne_ready (e : SslReadErr) (n : Int) :
    sslErrorReadEvent e n ≠ ReadEvent.readReady := by
  cases e with
  | noErr => simp [sslErrorReadEvent]
  | wantRead => simp [sslErrorReadEvent]
  | wantWrite => simp [sslErrorReadEvent]
  | wantX509 => simp [sslErrorReadEvent]
  | syscall => by_cases h0 : n = 0 <;> simp [sslErrorReadEvent, h0]
  | zeroReturn => simp [sslErrorReadEvent]
  | sslOther => simp [sslErrorReadEvent]

/-- The engine trace left by the inner block loop is a suffix of the trace
it was given. -/
theorem sslReadBlock_rest_suffix (errnoV avail : Int) (calls : List ReadCall) :
    (sslReadBlock errnoV avail calls).2.2.2 <:+ calls := by
  induction calls generalizing avail with
  | nil => simp [sslReadBlock]
  | cons c rest ih =>
    simp only [sslReadBlock]
    by_cases hav : avail ≤ 0
    · simp [hav]
    · simp only [hav, if_false]
      cases hc : c.err with
      | noErr =>
        simp only []
        exact (ih (avail - c.nread)).trans (List.suffix_cons c rest)
      | wantRead => exact List.suffix_cons c rest
      | wantWrite => exact List.suffix_cons c rest
      | wantX509 => exact List.suffix_cons c rest
      | syscall => exact List.suffix_cons c rest
      | zeroReturn => exact List.suffix_cons c rest
      | sslOther => exact List.suffix_cons c rest

/-- With engine success responses delivering nonnegative counts, the block
loop accumulates a nonnegative count. -/
theorem sslReadBlock_nonneg (errnoV avail : Int) (calls : List ReadCall)
    (h : ∀ c ∈ calls, c.err = SslReadErr.noErr → 0 ≤ c.nread) :
    0 ≤ (sslReadBlock errnoV avail calls).2.2.1 := by
  induction calls generalizing avail with
  | nil => simp [sslReadBlock]
  | cons c rest ih =>
    simp only [sslReadBlock]
    by_cases hav : avail ≤ 0
    · simp [hav]
    · simp only [hav, if_false]
      cases hc : c.err with
      | noErr =>
        have h1 : 0 ≤ c.nread := h c (List.mem_cons_self c rest) hc
        have h2 := ih (avail - c.nread) (fun x hx hxe => h x (List.mem_cons_of_mem c hx) hxe)
        simpa using add_nonneg h1 h2
      | wantRead => simp
      | wantWrite => simp
      | wantX509 => simp
      | syscall => simp
      | zeroReturn => simp
      | sslOther => simp

/-- The inner block loop never reports read ready. -/
theorem sslReadBlock_ne_ready (errnoV avail : Int) (calls : List ReadCall) :
    (sslReadBlock errnoV avail calls).1 ≠ ReadEvent.readReady := by
  induction calls generalizing avail with
  | nil => simp [sslReadBlock]
  | cons c rest ih =>
    simp only [sslReadBlock]
    by_cases hav : avail ≤ 0
    · simp [hav]
    · simp only [hav, if_false]
      cases hc : c.err with
      | noErr => simpa using ih (avail - c.nread)
      | wantRead => simpa using sslErrorReadEvent_ne_ready SslReadErr.wantRead c.nread
      | wantWrite => simpa using sslErrorReadEvent_ne_ready SslReadErr.wantWrite c.nread
      | wantX509 => simpa using sslErrorReadEvent_ne_ready SslReadErr.wantX509 c.nread
      | syscall => simpa using sslErrorReadEvent_ne_ready SslReadErr.syscall c.nread
      | zeroReturn => simpa using sslErrorReadEvent_ne_ready SslReadErr.zeroReturn c.nread
      | sslOther => simpa using sslErrorReadEvent_ne_ready SslReadErr.sslOther c.nread

/-- A block with positive write space and a nonempty engine trace whose
success responses deliver at least one byte either ends with a non neutral
event or accumulates at least one byte. -/
theorem sslReadBlock_progress (errnoV avail : Int) (calls : List ReadCall)
    (hpos : 0 < avail) (hne : calls ≠ [])
    (h : ∀ c ∈ calls, c.err = SslReadErr.noErr → 1 ≤ c.nread) :
    (sslReadBlock errnoV avail calls).1 ≠ ReadEvent.errorNone ∨
      1 ≤ (sslReadBlock errnoV avail calls).2.2.1 := by
  cases calls with
  | nil => exact absurd rfl hne
  | cons c rest =>
    simp only [sslReadBlock]
    have hav : ¬ avail ≤ 0 := not_le.mpr hpos
    simp only [hav, if_false]
    cases hc : c.err with
    | noErr =>
      right
      have h1 : 1 ≤ c.nread := h c (List.mem_cons_self c rest) hc
      have h2 : 0 ≤ (sslReadBlock errnoV (avail - c.nread) rest).2.2.1 :=
        sslReadBlock_nonneg errnoV (avail - c.nread) rest
          (fun x hx hxe => le_trans (by norm_num) (h x (List.mem_cons_of_mem c hx) hxe))
      simp only []
      linarith
    | wantRead =>
      exact Or.inl (by simpa using sslErrorReadEvent_ne_none SslReadErr.wantRead c.nread (by simp))
    | wantWrite =>
      exact Or.inl (by simpa using sslErrorReadEvent_ne_none SslReadErr.wantWrite c.nread (by simp))
    | wantX509 =>
      exact Or.inl (by simpa using sslErrorReadEvent_ne_none SslReadErr.wantX509 c.nread (by simp))
    | syscall =>
      exact Or.inl (by simpa using sslErrorReadEvent_ne_none SslReadErr.syscall c.nread (by simp))
    | zeroReturn =>
      exact Or.inl (by simpa using sslErrorReadEvent_ne_none SslReadErr.zeroReturn c.nread (by simp))
    | sslOther =>
      exact Or.inl (by simpa using sslErrorReadEvent_ne_none SslReadErr.sslOther c.nread (by simp))

/-- A block without write space consumes nothing and changes nothing. -/
theorem sslReadBlock_stuck (errnoV avail : Int) (calls : List ReadCall) (hav : avail ≤ 0) :
    sslReadBlock errnoV avail calls = (ReadEvent.errorNone, none, 0, calls) := by
  cases calls <;> simp [sslReadBlock, hav]

/-- With engine success responses delivering nonnegative counts, the block
walk accumulates a nonnegative total. -/
theorem sslReadBlocks_nonneg (errnoV : Int) (blocks : List Int) (calls : List ReadCall)
    (h : ∀ c ∈ calls, c.err = SslReadErr.noErr → 0 ≤ c.nread) :
    0 ≤ (sslReadBlocks errnoV blocks calls).2.2.1 := by
  induction blocks generalizing calls with
  | nil => simp [sslReadBlocks]
  | cons b bs ih =>
    simp only [sslReadBlocks]
    by_cases he : (sslReadBlock errnoV b calls).1 = ReadEvent.errorNone
    · rw [if_pos he]
      have h1 := sslReadBlock_nonneg errnoV b calls h
      have h2 := ih (sslReadBlock errnoV b calls).2.2.2
        (fun x hx hxe => h x ((sslReadBlock_rest_suffix errnoV b calls).subset hx) hxe)
      simpa using add_nonneg h1 h2
    · rw [if_neg he]
      exact sslReadBlock_nonneg errnoV b calls h

/-- The block walk never reports read ready. -/
theorem sslReadBlocks_ne_ready (errnoV : Int) (blocks : List Int) (calls : List ReadCall) :
    (sslReadBlocks errnoV blocks calls).1 ≠ ReadEvent.readReady := by
  induction blocks generalizing calls with
  | nil => simp [sslReadBlocks]
  | cons b bs ih =>
    simp only [sslReadBlocks]
    by_cases he : (sslReadBlock errnoV b calls).1 = ReadEvent.errorNone
    · rw [if_pos he]
      simpa using ih (sslReadBlock errnoV b calls).2.2.2
    · rw [if_neg he]
      exact sslReadBlock_ne_ready errnoV b calls

/-- With some block holding write space, a nonempty trace and success
responses delivering at least one byte, the block walk either ends with a
non neutral event or accumulates at least one byte. -/
theorem sslReadBlocks_progress (errnoV : Int) (blocks : List Int) (calls : List ReadCall)
    (hb : ∃ b ∈ blocks, 0 < b) (hne : calls ≠ [])
    (h : ∀ c ∈ calls, c.err = SslReadErr.noErr → 1 ≤ c.nread) :
    (sslReadBlocks errnoV blocks calls).1 ≠ ReadEvent.errorNone ∨
      1 ≤ (sslReadBlocks errnoV blocks calls).2.2.1 := by
  induction blocks generalizing calls with
  | nil => simp at hb
  | cons b bs ih =>
    simp only [sslReadBlocks]
    by_cases hbpos : 0 < b
    · by_cases he : (sslReadBlock errnoV b calls).1 = ReadEvent.errorNone
      · rw [if_pos he]
        right
        rcases sslReadBlock_progress errnoV b calls hbpos hne h with hev | hbytes
        · exact absurd he hev
        · have h2 : 0 ≤ (sslReadBlocks errnoV bs (sslReadBlock errnoV b calls).2.2.2).2.2.1 :=
            sslReadBlocks_nonneg errnoV bs (sslReadBlock errnoV b calls).2.2.2
              (fun x hx hxe => le_trans (by norm_num)
                (h x ((sslReadBlock_rest_suffix errnoV b calls).subset hx) hxe))
          simp only []
          linarith
      · rw [if_neg he]
        exact Or.inl he
    · have hstuck := sslReadBlock_stuck errnoV b calls (not_lt.mp hbpos)
      rw [hstuck]
      simp only []
      rcases hb with ⟨x, hx, hxpos⟩
      rcases List.mem_cons.mp hx with hxb | hxbs
      · exact absurd (hxb ▸ hxpos) hbpos
      · rcases ih calls ⟨x, hxbs, hxpos⟩ hne h with hev | hbytes
        · exact Or.inl (by simpa using hev)
        · exact Or.inr (by simpa using hbytes)

/-- Claim C9: when the read VIO has positive remaining demand, some block of
its buffer has write space, the engine answers the first request, and every
engine success response delivers at least one byte, the do while decrypt
loop of net_read_io terminates; in fact its body executes exactly once and
the loop result equals a single body execution, for any fuel. -/
theorem net_read_loop_body_once
    (errnoV nbytes ndone : Int) (blocks : List Int) (calls : List ReadCall)
    (hdemand : 0 < nbytes - ndone)
    (hb : ∃ b ∈ blocks, 0 < b) (hne : calls ≠ [])
    (h : ∀ c ∈ calls, c.err = SslReadErr.noErr → 1 ≤ c.nread) (fuel : Nat) :
    netReadLoop errnoV nbytes (fuel + 1) blocks calls ndone 0 0 =
      some ((netReadOnce errnoV nbytes blocks calls ndone 0 0).1,
            (netReadOnce errnoV nbytes blocks calls ndone 0 0).2, 1) := by
  have hprog := sslReadBlocks_progress errnoV blocks calls hb hne h
  have hnready := sslReadBlocks_ne_ready errnoV blocks calls
  have hfact :
      (ssl_read_from_net errnoV blocks calls nbytes ndone 0).event ≠ ReadEvent.errorNone ∧
      ((ssl_read_from_net errnoV blocks calls nbytes ndone 0).event = ReadEvent.readReady →
        1 ≤ (ssl_read_from_net errnoV blocks calls nbytes ndone 0).ret) := by
    by_cases hpos : (sslReadBlocks errnoV blocks calls).2.2.1 > 0
    · constructor
      · simp only [ssl_read_from_net, hpos, if_true]
        split <;> simp
      · intro hr
        simp only [ssl_read_from_net, hpos, if_true] at hr ⊢
        omega
    · have hev : (ssl_read_from_net errnoV blocks calls nbytes ndone 0).event =
          (sslReadBlocks errnoV blocks calls).1 := by
        simp only [ssl_read_from_net, hpos, if_false]
      constructor
      · rw [hev]
        rcases hprog with h1 | h2
        · exact h1
        · exact absurd h2 (by omega)
      · rw [hev]
        intro hr
        exact absurd hr hnready
  have hcond :
      ¬ (((ssl_read_from_net errnoV blocks calls nbytes ndone 0).event = ReadEvent.readReady ∧
          (if (ssl_read_from_net errnoV blocks calls nbytes ndone 0).event = ReadEvent.readReady ∨
              (ssl_read_from_net errnoV blocks calls nbytes ndone 0).event = ReadEvent.errorNone
            then 0 + (ssl_read_from_net errnoV blocks calls nbytes ndone 0).ret else 0) = 0) ∨
        (ssl_read_from_net errnoV blocks calls nbytes ndone 0).event = ReadEvent.errorNone) := by
    rintro (⟨hr, hb2⟩ | hnone)
    · have h1 := hfact.2 hr
      rw [if_pos (Or.inl hr)] at hb2
      omega
    · exact hfact.1 hnone
  simp only [netReadLoop, netReadOnce]
  rw [if_neg hcond]

/-- Witness for claim C9 at a concrete run: one body execution returning
read ready with two bytes. -/
theorem net_read_loop_body_once_inst :
    netReadLoop 0 10 1 [4] [{ err := SslReadErr.noErr, nread := 2 }] 0 0 0 =
      some (ReadEvent.readReady, 2, 1) := by
  have h := net_read_loop_body_once 0 10 0 [4] [{ err := SslReadErr.noErr, nread := 2 }]
    (by decide) ⟨4, by decide, by decide⟩ (by decide) (by decide) 0
  exact h.trans (by decide)

/-- The post walk portion of the server handshake step never dispatches a
pre accept hook. -/
theorem afterPreAccept_no_dispatch (o : SrvOracle) (s : HsState) :
    (afterPreAccept o s).2.1 = none := by
  by_cases h1 : s.hookOp = HookOp.tunnel
  · simp [afterPreAccept, h1]
  · by_cases h2 : s.hookOp = HookOp.terminate
    · simp [afterPreAccept, h1, h2]
    · cases hr : o.acceptResult <;>
        simp [afterPreAccept, h1, h2, hr] <;>
        (try (split_ifs <;> simp))

/-- From a reenabled walk state whose pointer designates the suffix c of the
chain, the dispatch sequence is the tail of c, cut to the round count. -/
theorem paDispatches_invoke (chain : List Nat) (o : SrvOracle) (n : Nat) :
    ∀ (c : List Nat) (s : HsState), s.preAcceptState = PreAcceptState.invoke →
      s.curHook = c → paDispatches chain o n s = (c.drop 1).take n := by
  induction n with
  | zero => intro c s hpa hcur; simp [paDispatches]
  | succ n ih =>
    intro c s hpa hcur
    rcases c with _ | ⟨x, xs⟩
    · simp [paDispatches, sslServerHandShakeEvent, hpa, hcur, afterPreAccept_no_dispatch]
    · rcases xs with _ | ⟨y, ys⟩
      · simp [paDispatches, sslServerHandShakeEvent, hpa, hcur, afterPreAccept_no_dispatch]
      · simp only [paDispatches, sslServerHandShakeEvent, hpa, hcur]
        simp only [List.drop_succ_cons, List.drop_zero]
        simp only [reduceCtorEq, ne_eq, not_false_iff, if_true, if_false, ite_true, ite_false]
        simp only [List.take_succ_cons]
        rw [ih (y :: ys) _ (by simp [sslReenable]) (by simp [sslReenable])]
        simp

/-- Claim C7: at most one pre accept hook is outstanding at a time: hooks
are dispatched one per round in chain order, the coordinator returns wait
for hook without advancing while a hook is active, reenable while the pre
accept state is not done moves the state to invoke and reschedules a read,
and reenable after that (state done, the SNI suspension regime) sets the
SNI state to continue. -/
theorem preaccept_hook_serialization :
    (∀ (chain : List Nat) (o : SrvOracle) (s : HsState),
      s.preAcceptState = PreAcceptState.active →
      sslServerHandShakeEvent chain o s = (s, none, HsResult.waitForHook))
  ∧ (∀ (chain : List Nat) (o : SrvOracle) (n : Nat) (s : HsState),
      s.preAcceptState = PreAcceptState.init →
      paDispatches chain o n s = chain.take n)
  ∧ (∀ s : HsState, s.preAcceptState ≠ PreAcceptState.done →
      sslReenable s = ({ s with preAcceptState := PreAcceptState.invoke }, true))
  ∧ (∀ s : HsState, s.preAcceptState = PreAcceptState.done →
      sslReenable s = ({ s with sniState := SniState.cont }, false)) := by
  refine ⟨fun chain o s hpa => ?_, fun chain o n s hpa => ?_,
    fun s hpa => ?_, fun s hpa => ?_⟩
  · simp [sslServerHandShakeEvent, hpa]
  · cases n with
    | zero => simp [paDispatches]
    | succ n =>
      rcases chain with _ | ⟨x, xs⟩
      · simp [paDispatches, sslServerHandShakeEvent, hpa, afterPreAccept_no_dispatch]
      · simp only [paDispatches, sslServerHandShakeEvent, hpa]
        simp only [reduceCtorEq, ne_eq, not_false_iff, if_true, if_false, ite_true, ite_false]
        simp only [List.take_succ_cons]
        rw [paDispatches_invoke (x :: xs) o n (x :: xs) _ (by simp [sslReenable])
          (by simp [sslReenable])]
        simp
  · simp [sslReenable, hpa]
  · simp [sslReenable, hpa]

/-- Witness for claim C7 at concrete inputs. -/
theorem preaccept_hook_serialization_inst :
    sslServerHandShakeEvent [3] oDefault
        { hsInit with preAcceptState := PreAcceptState.active } =
      ({ hsInit with preAcceptState := PreAcceptState.active }, none, HsResult.waitForHook)
  ∧ paDispatches [3, 5] oDefault 2 hsInit = [3, 5].take 2
  ∧ sslReenable { hsInit with preAcceptState := PreAcceptState.active } =
      ({ hsInit with preAcceptState := PreAcceptState.invoke }, true)
  ∧ sslReenable { hsInit with preAcceptState := PreAcceptState.done } =
      ({ { hsInit with preAcceptState := PreAcceptState.done } with
          sniState := SniState.cont }, false) :=
  ⟨preaccept_hook_serialization.1 [3] oDefault
      { hsInit with preAcceptState := PreAcceptState.active } rfl,
   preaccept_hook_serialization.2.1 [3, 5] oDefault 2 hsInit rfl,
   preaccept_hook_serialization.2.2.1 { hsInit with preAcceptState := PreAcceptState.active }
      (by decide),
   preaccept_hook_serialization.2.2.2 { hsInit with preAcceptState := PreAcceptState.done } rfl⟩

/-- Claim C4 counterexample: on the first server handshake entry with one
pre accept hook registered and a non tunnel certificate context, the TLS
session is created immediately and the call returns wait for hook with the
walk still outstanding; the session therefore exists before the pre accept
hook walk completes and before any verdict is inspected, contrary to the
claim that it is created only afterwards. -/
theorem session_created_before_walk_completes :
    ((sslStartHandShakeServer [7] oDefault (some { optTunnel := false }) false (some 1)
        hsInit).1.ssl = some 1)
  ∧ ((sslStartHandShakeServer [7] oDefault (some { optTunnel := false }) false (some 1)
        hsInit).1.preAcceptState = PreAcceptState.active)
  ∧ ((sslStartHandShakeServer [7] oDefault (some { optTunnel := false }) false (some 1)
        hsInit).2.2 = HsResult.waitForHook) := by
  refine ⟨rfl, rfl, rfl⟩

/-- Claim C4 amended: the TLS session is created on entry to the server
handshake driver, before the pre accept hook walk completes, unless a
tunnel flagged certificate context on a transparent vc converts the
connection to blind tunnel immediately without a session; once the walk is
done, a tunnel verdict converts to blind tunnel, releases the session,
marks the handshake done and returns done, while a terminate verdict marks
the handshake done with the already created session retained and returns
done. -/
theorem server_handshake_session_and_verdicts :
    (∀ (x : Nat) (rest : List Nat) (o : SrvOracle) (sess : Nat) (s : HsState),
      s.ssl = none → s.preAcceptState = PreAcceptState.init →
      sslStartHandShakeServer (x :: rest) o none false (some sess) s =
        ({ s with
          ssl := some sess
          curHook := x :: rest
          preAcceptState := PreAcceptState.active }, some x, HsResult.waitForHook))
  ∧ (∀ (chain : List Nat) (o : SrvOracle) (cc : CertCtx) (ns : Option Nat) (s : HsState),
      s.ssl = none → cc.optTunnel = true →
      sslStartHandShakeServer chain o (some cc) true ns s =
        ({ s with attributes := Attr.blindTunnel, sslHandShakeComplete := true, ssl := none },
          none, HsResult.done))
  ∧ (∀ (chain : List Nat) (o : SrvOracle) (s : HsState),
      s.preAcceptState = PreAcceptState.done → s.hookOp = HookOp.tunnel →
      sslServerHandShakeEvent chain o s =
        ({ s with attributes := Attr.blindTunnel, ssl := none, sslHandShakeComplete := true },
          none, HsResult.done))
  ∧ (∀ (chain : List Nat) (o : SrvOracle) (s : HsState),
      s.preAcceptState = PreAcceptState.done → s.hookOp = HookOp.terminate →
      sslServerHandShakeEvent chain o s =
        ({ s with sslHandShakeComplete := true }, none, HsResult.done)
      ∧ ({ s with sslHandShakeComplete := true } : HsState).ssl = s.ssl) := by
  refine ⟨fun x rest o sess s hssl hpa => ?_, fun chain o cc ns s hssl hcc => ?_,
    fun chain o s hpa hop => ?_, fun chain o s hpa hop => ?_⟩
  · cases s
    simp_all [sslStartHandShakeServer, sslServerHandShakeEvent]
  · cases s
    simp_all [sslStartHandShakeServer]
  · cases s
    simp_all [sslServerHandShakeEvent, afterPreAccept]
  · cases s
    simp_all [sslServerHandShakeEvent, afterPreAccept]

/-- Witness for the amended claim C4 at concrete inputs. -/
theorem server_handshake_session_and_verdicts_inst :
    sslStartHandShakeServer [7] oDefault none false (some 1) hsInit =
      ({ hsInit with
        ssl := some 1
        curHook := [7]
        preAcceptState := PreAcceptState.active }, some 7, HsResult.waitForHook)
  ∧ sslStartHandShakeServer [] oDefault (some { optTunnel := true }) true none hsInit =
      ({ hsInit with
        attributes := Attr.blindTunnel
        sslHandShakeComplete := true
        ssl := none }, none, HsResult.done)
  ∧ sslServerHandShakeEvent [] oDefault hsDoneTunnel =
      ({ hsDoneTunnel with
        attributes := Attr.blindTunnel
        ssl := none
        sslHandShakeComplete := true }, none, HsResult.done)
  ∧ (sslServerHandShakeEvent [] oDefault hsDoneTerm =
      ({ hsDoneTerm with sslHandShakeComplete := true }, none, HsResult.done)
    ∧ ({ hsDoneTerm with sslHandShakeComplete := true } : HsState).ssl = hsDoneTerm.ssl) :=
  ⟨server_handshake_session_and_verdicts.1 7 [] oDefault 1 hsInit rfl rfl,
   server_handshake_session_and_verdicts.2.1 [] oDefault { optTunnel := true } none hsInit rfl rfl,
   server_handshake_session_and_verdicts.2.2.1 [] oDefault hsDoneTunnel rfl rfl,
   server_handshake_session_and_verdicts.2.2.2 [] oDefault hsDoneTerm rfl rfl⟩

/-- Claim C6: on server handshake success the ALPN selection is inspected
first and wins over NPN (NPN is consulted only when ALPN selected nothing);
a selected protocol is resolved through the registry, the handshake flag is
set, and an unresolved protocol makes the handshake return error. -/
theorem alpn_preference_resolution :
    (∀ o : SrvOracle, o.alpnProto ≠ [] → selectedProto o = o.alpnProto)
  ∧ (∀ o : SrvOracle, o.alpnProto = [] → selectedProto o = o.npnProto)
  ∧ (∀ (chain : List Nat) (o : SrvOracle) (s : HsState),
      s.preAcceptState = PreAcceptState.done → s.hookOp = HookOp.dflt →
      o.acceptResult = SslHsErr.noErr → selectedProto o ≠ [] →
      o.findEndpoint (selectedProto o) = none →
      (sslServerHandShakeEvent chain o s).2.2 = HsResult.error)
  ∧ (∀ (chain : List Nat) (o : SrvOracle) (s : HsState) (e : Nat),
      s.preAcceptState = PreAcceptState.done → s.hookOp = HookOp.dflt →
      o.acceptResult = SslHsErr.noErr → selectedProto o ≠ [] →
      o.findEndpoint (selectedProto o) = some e →
      (sslServerHandShakeEvent chain o s).2.2 = HsResult.done
      ∧ (sslServerHandShakeEvent chain o s).1.npnEndpoint = some e
      ∧ (sslServerHandShakeEvent chain o s).1.sslHandShakeComplete = true) := by
  refine ⟨fun o ha => ?_, fun o ha => ?_, fun chain o s hpa hop hacc hp hep => ?_,
    fun chain o s e hpa hop hacc hp hep => ?_⟩
  · simp [selectedProto, ha]
  · simp [selectedProto, ha]
  · simp [sslServerHandShakeEvent, afterPreAccept, hpa, hop, hacc, hp, hep]
  · simp [sslServerHandShakeEvent, afterPreAccept, hpa, hop, hacc, hp, hep]

/-- Witness for claim C6 at a concrete oracle preferring ALPN. -/
theorem alpn_preference_resolution_inst :
    selectedProto oAlpnGood = [2]
  ∧ (sslServerHandShakeEvent [] oAlpnBad hsDone).2.2 = HsResult.error
  ∧ (sslServerHandShakeEvent [] oAlpnGood hsDone).2.2 = HsResult.done
  ∧ (sslServerHandShakeEvent [] oAlpnGood hsDone).1.npnEndpoint = some 9 := by
  refine ⟨?_, ?_, ?_, ?_⟩
  · exact alpn_preference_resolution.1 oAlpnGood (by decide)
  · exact alpn_preference_resolution.2.2.1 [] oAlpnBad hsDone rfl rfl rfl (by decide) rfl
  · exact (alpn_preference_resolution.2.2.2 [] oAlpnGood hsDone 9 rfl rfl rfl (by decide)
      (by decide)).1
  · exact (alpn_preference_resolution.2.2.2 [] oAlpnGood hsDone 9 rfl rfl rfl (by decide)
      (by decide)).2.1
